import Mathlib

set_option maxRecDepth 40000

/-!
Verification of the extraction core of `down.py`.

The program compiles the regular expression

  `^(?P<address>[13][a-zA-Z0-9]{25,34})\s+(?P<signature>[+\w/=]+)$`

with `re.MULTILINE`, runs `finditer` over the text of the first `<pre>`
element of the fetched page, and prints `f"{addr} {sig}"` for every match.

Shallow embedding notes (all justified against Python `re` semantics):

* Text is a `List Char` (Python `str` is a sequence of Unicode scalar
  values, exactly what `Char` is).
* With `re.MULTILINE`, `^` matches at offset 0 and immediately after every
  `'\n'`; `$` matches at end of input and immediately before every `'\n'`.
  `$` does not treat `'\r'` specially.
* `\s` matches newline characters even under `re.MULTILINE`; the class is
  the fixed set of Unicode whitespace characters, embedded exactly in
  `isPySpace`.
* `\w` in a `str` pattern without `re.ASCII` is the Unicode word class:
  the ASCII characters `[a-zA-Z0-9_]` together with every non-ASCII
  Unicode word character.  The non-ASCII part is embedded exactly as the
  closed code-point intervals `wordIntervals` of the runtime's Unicode
  tables (CPython 3.11, Unicode 14.0.0): a code point at or above 0x80
  matches `\w` iff it lies in one of these intervals.  The address class
  `[a-zA-Z0-9]` and the literals `+ / =` are ASCII by construction.
* The pattern's greedy matching is deterministic, because adjacent
  character classes are disjoint where it matters:
  - the address class and `\s` are disjoint, and the address run is
    bounded by `{25,34}`, so the address sub-match must consume the whole
    maximal alphanumeric run after the first character (any shorter
    attempt leaves an alphanumeric character where `\s+` must start, and
    a longer run than 34 makes every backtracking attempt fail the same
    way);
  - `\s` and the signature class `[+\w/=]` are disjoint, so `\s+` must
    consume the whole maximal whitespace run;
  - the signature class does not contain `'\n'`, so `$` can only hold at
    the end of the maximal signature run; shortening the run by
    backtracking puts `$` before a signature character, never before a
    newline.
  Hence a match attempt anchored at a line start succeeds iff the text
  there decomposes into: `[13]`, a complete alphanumeric run of length
  25-34, a nonempty maximal whitespace run, a nonempty maximal signature
  run, followed by `'\n'` or end of input.  `tryMatch` computes exactly
  this decomposition.
* `finditer` yields non-overlapping matches scanning left to right.  The
  pattern starts with `^`, so attempts succeed only at line starts; a
  failed attempt at a line start means no match can start anywhere in
  that line, and the scan moves to the next line.  A successful match
  ends before a `'\n'` or at the end of input (position after a signature
  character, hence never itself a line start), so the scan resumes at the
  following line.  `scanFuel` implements this line-anchored scan; the
  fuel argument only bounds the recursion and is irrelevant once it
  exceeds the length of the text.
* `soup.find("pre")` returns `None` when no preformatted block exists and
  `None.get_text()` raises `AttributeError`, which nothing catches; the
  pipeline is embedded as `runProgram : Option (List Char) → Except Unit
  (List Char)` where `Except.error` is the propagated abnormal
  termination and the `Except.ok` payload is the full standard output of
  the print loop.
-/

namespace Down

/-- Code points accepted by the address class `[a-zA-Z0-9]` of the
pattern: `0`-`9` (48-57), `A`-`Z` (65-90), `a`-`z` (97-122). -/
def isAddrChar (c : Char) : Bool :=
  decide ((48 ≤ c.toNat ∧ c.toNat ≤ 57) ∨ (65 ≤ c.toNat ∧ c.toNat ≤ 90) ∨
    (97 ≤ c.toNat ∧ c.toNat ≤ 122))

/-- The non-ASCII code points matched by `\w` in a `str` pattern: the
closed intervals of Unicode word characters at or above 0x80, taken from
the runtime's Unicode 14.0.0 tables (CPython 3.11). -/
def wordIntervals : List (Nat × Nat) :=
  [    (0xAA, 0xAA), (0xB2, 0xB3), (0xB5, 0xB5), (0xB9, 0xBA),
    (0xBC, 0xBE), (0xC0, 0xD6), (0xD8, 0xF6), (0xF8, 0x2C1),
    (0x2C6, 0x2D1), (0x2E0, 0x2E4), (0x2EC, 0x2EC), (0x2EE, 0x2EE),
    (0x370, 0x374), (0x376, 0x377), (0x37A, 0x37D), (0x37F, 0x37F),
    (0x386, 0x386), (0x388, 0x38A), (0x38C, 0x38C), (0x38E, 0x3A1),
    (0x3A3, 0x3F5), (0x3F7, 0x481), (0x48A, 0x52F), (0x531, 0x556),
    (0x559, 0x559), (0x560, 0x588), (0x5D0, 0x5EA), (0x5EF, 0x5F2),
    (0x620, 0x64A), (0x660, 0x669), (0x66E, 0x66F), (0x671, 0x6D3),
    (0x6D5, 0x6D5), (0x6E5, 0x6E6), (0x6EE, 0x6FC), (0x6FF, 0x6FF),
    (0x710, 0x710), (0x712, 0x72F), (0x74D, 0x7A5), (0x7B1, 0x7B1),
    (0x7C0, 0x7EA), (0x7F4, 0x7F5), (0x7FA, 0x7FA), (0x800, 0x815),
    (0x81A, 0x81A), (0x824, 0x824), (0x828, 0x828), (0x840, 0x858),
    (0x860, 0x86A), (0x870, 0x887), (0x889, 0x88E), (0x8A0, 0x8C9),
    (0x904, 0x939), (0x93D, 0x93D), (0x950, 0x950), (0x958, 0x961),
    (0x966, 0x96F), (0x971, 0x980), (0x985, 0x98C), (0x98F, 0x990),
    (0x993, 0x9A8), (0x9AA, 0x9B0), (0x9B2, 0x9B2), (0x9B6, 0x9B9),
    (0x9BD, 0x9BD), (0x9CE, 0x9CE), (0x9DC, 0x9DD), (0x9DF, 0x9E1),
    (0x9E6, 0x9F1), (0x9F4, 0x9F9), (0x9FC, 0x9FC), (0xA05, 0xA0A),
    (0xA0F, 0xA10), (0xA13, 0xA28), (0xA2A, 0xA30), (0xA32, 0xA33),
    (0xA35, 0xA36), (0xA38, 0xA39), (0xA59, 0xA5C), (0xA5E, 0xA5E),
    (0xA66, 0xA6F), (0xA72, 0xA74), (0xA85, 0xA8D), (0xA8F, 0xA91),
    (0xA93, 0xAA8), (0xAAA, 0xAB0), (0xAB2, 0xAB3), (0xAB5, 0xAB9),
    (0xABD, 0xABD), (0xAD0, 0xAD0), (0xAE0, 0xAE1), (0xAE6, 0xAEF),
    (0xAF9, 0xAF9), (0xB05, 0xB0C), (0xB0F, 0xB10), (0xB13, 0xB28),
    (0xB2A, 0xB30), (0xB32, 0xB33), (0xB35, 0xB39), (0xB3D, 0xB3D),
    (0xB5C, 0xB5D), (0xB5F, 0xB61), (0xB66, 0xB6F), (0xB71, 0xB77),
    (0xB83, 0xB83), (0xB85, 0xB8A), (0xB8E, 0xB90), (0xB92, 0xB95),
    (0xB99, 0xB9A), (0xB9C, 0xB9C), (0xB9E, 0xB9F), (0xBA3, 0xBA4),
    (0xBA8, 0xBAA), (0xBAE, 0xBB9), (0xBD0, 0xBD0), (0xBE6, 0xBF2),
    (0xC05, 0xC0C), (0xC0E, 0xC10), (0xC12, 0xC28), (0xC2A, 0xC39),
    (0xC3D, 0xC3D), (0xC58, 0xC5A), (0xC5D, 0xC5D), (0xC60, 0xC61),
    (0xC66, 0xC6F), (0xC78, 0xC7E), (0xC80, 0xC80), (0xC85, 0xC8C),
    (0xC8E, 0xC90), (0xC92, 0xCA8), (0xCAA, 0xCB3), (0xCB5, 0xCB9),
    (0xCBD, 0xCBD), (0xCDD, 0xCDE), (0xCE0, 0xCE1), (0xCE6, 0xCEF),
    (0xCF1, 0xCF2), (0xD04, 0xD0C), (0xD0E, 0xD10), (0xD12, 0xD3A),
    (0xD3D, 0xD3D), (0xD4E, 0xD4E), (0xD54, 0xD56), (0xD58, 0xD61),
    (0xD66, 0xD78), (0xD7A, 0xD7F), (0xD85, 0xD96), (0xD9A, 0xDB1),
    (0xDB3, 0xDBB), (0xDBD, 0xDBD), (0xDC0, 0xDC6), (0xDE6, 0xDEF),
    (0xE01, 0xE30), (0xE32, 0xE33), (0xE40, 0xE46), (0xE50, 0xE59),
    (0xE81, 0xE82), (0xE84, 0xE84), (0xE86, 0xE8A), (0xE8C, 0xEA3),
    (0xEA5, 0xEA5), (0xEA7, 0xEB0), (0xEB2, 0xEB3), (0xEBD, 0xEBD),
    (0xEC0, 0xEC4), (0xEC6, 0xEC6), (0xED0, 0xED9), (0xEDC, 0xEDF),
    (0xF00, 0xF00), (0xF20, 0xF33), (0xF40, 0xF47), (0xF49, 0xF6C),
    (0xF88, 0xF8C), (0x1000, 0x102A), (0x103F, 0x1049), (0x1050, 0x1055),
    (0x105A, 0x105D), (0x1061, 0x1061), (0x1065, 0x1066), (0x106E, 0x1070),
    (0x1075, 0x1081), (0x108E, 0x108E), (0x1090, 0x1099), (0x10A0, 0x10C5),
    (0x10C7, 0x10C7), (0x10CD, 0x10CD), (0x10D0, 0x10FA), (0x10FC, 0x1248),
    (0x124A, 0x124D), (0x1250, 0x1256), (0x1258, 0x1258), (0x125A, 0x125D),
    (0x1260, 0x1288), (0x128A, 0x128D), (0x1290, 0x12B0), (0x12B2, 0x12B5),
    (0x12B8, 0x12BE), (0x12C0, 0x12C0), (0x12C2, 0x12C5), (0x12C8, 0x12D6),
    (0x12D8, 0x1310), (0x1312, 0x1315), (0x1318, 0x135A), (0x1369, 0x137C),
    (0x1380, 0x138F), (0x13A0, 0x13F5), (0x13F8, 0x13FD), (0x1401, 0x166C),
    (0x166F, 0x167F), (0x1681, 0x169A), (0x16A0, 0x16EA), (0x16EE, 0x16F8),
    (0x1700, 0x1711), (0x171F, 0x1731), (0x1740, 0x1751), (0x1760, 0x176C),
    (0x176E, 0x1770), (0x1780, 0x17B3), (0x17D7, 0x17D7), (0x17DC, 0x17DC),
    (0x17E0, 0x17E9), (0x17F0, 0x17F9), (0x1810, 0x1819), (0x1820, 0x1878),
    (0x1880, 0x1884), (0x1887, 0x18A8), (0x18AA, 0x18AA), (0x18B0, 0x18F5),
    (0x1900, 0x191E), (0x1946, 0x196D), (0x1970, 0x1974), (0x1980, 0x19AB),
    (0x19B0, 0x19C9), (0x19D0, 0x19DA), (0x1A00, 0x1A16), (0x1A20, 0x1A54),
    (0x1A80, 0x1A89), (0x1A90, 0x1A99), (0x1AA7, 0x1AA7), (0x1B05, 0x1B33),
    (0x1B45, 0x1B4C), (0x1B50, 0x1B59), (0x1B83, 0x1BA0), (0x1BAE, 0x1BE5),
    (0x1C00, 0x1C23), (0x1C40, 0x1C49), (0x1C4D, 0x1C7D), (0x1C80, 0x1C88),
    (0x1C90, 0x1CBA), (0x1CBD, 0x1CBF), (0x1CE9, 0x1CEC), (0x1CEE, 0x1CF3),
    (0x1CF5, 0x1CF6), (0x1CFA, 0x1CFA), (0x1D00, 0x1DBF), (0x1E00, 0x1F15),
    (0x1F18, 0x1F1D), (0x1F20, 0x1F45), (0x1F48, 0x1F4D), (0x1F50, 0x1F57),
    (0x1F59, 0x1F59), (0x1F5B, 0x1F5B), (0x1F5D, 0x1F5D), (0x1F5F, 0x1F7D),
    (0x1F80, 0x1FB4), (0x1FB6, 0x1FBC), (0x1FBE, 0x1FBE), (0x1FC2, 0x1FC4),
    (0x1FC6, 0x1FCC), (0x1FD0, 0x1FD3), (0x1FD6, 0x1FDB), (0x1FE0, 0x1FEC),
    (0x1FF2, 0x1FF4), (0x1FF6, 0x1FFC), (0x2070, 0x2071), (0x2074, 0x2079),
    (0x207F, 0x2089), (0x2090, 0x209C), (0x2102, 0x2102), (0x2107, 0x2107),
    (0x210A, 0x2113), (0x2115, 0x2115), (0x2119, 0x211D), (0x2124, 0x2124),
    (0x2126, 0x2126), (0x2128, 0x2128), (0x212A, 0x212D), (0x212F, 0x2139),
    (0x213C, 0x213F), (0x2145, 0x2149), (0x214E, 0x214E), (0x2150, 0x2189),
    (0x2460, 0x249B), (0x24EA, 0x24FF), (0x2776, 0x2793), (0x2C00, 0x2CE4),
    (0x2CEB, 0x2CEE), (0x2CF2, 0x2CF3), (0x2CFD, 0x2CFD), (0x2D00, 0x2D25),
    (0x2D27, 0x2D27), (0x2D2D, 0x2D2D), (0x2D30, 0x2D67), (0x2D6F, 0x2D6F),
    (0x2D80, 0x2D96), (0x2DA0, 0x2DA6), (0x2DA8, 0x2DAE), (0x2DB0, 0x2DB6),
    (0x2DB8, 0x2DBE), (0x2DC0, 0x2DC6), (0x2DC8, 0x2DCE), (0x2DD0, 0x2DD6),
    (0x2DD8, 0x2DDE), (0x2E2F, 0x2E2F), (0x3005, 0x3007), (0x3021, 0x3029),
    (0x3031, 0x3035), (0x3038, 0x303C), (0x3041, 0x3096), (0x309D, 0x309F),
    (0x30A1, 0x30FA), (0x30FC, 0x30FF), (0x3105, 0x312F), (0x3131, 0x318E),
    (0x3192, 0x3195), (0x31A0, 0x31BF), (0x31F0, 0x31FF), (0x3220, 0x3229),
    (0x3248, 0x324F), (0x3251, 0x325F), (0x3280, 0x3289), (0x32B1, 0x32BF),
    (0x3400, 0x4DBF), (0x4E00, 0xA48C), (0xA4D0, 0xA4FD), (0xA500, 0xA60C),
    (0xA610, 0xA62B), (0xA640, 0xA66E), (0xA67F, 0xA69D), (0xA6A0, 0xA6EF),
    (0xA717, 0xA71F), (0xA722, 0xA788), (0xA78B, 0xA7CA), (0xA7D0, 0xA7D1),
    (0xA7D3, 0xA7D3), (0xA7D5, 0xA7D9), (0xA7F2, 0xA801), (0xA803, 0xA805),
    (0xA807, 0xA80A), (0xA80C, 0xA822), (0xA830, 0xA835), (0xA840, 0xA873),
    (0xA882, 0xA8B3), (0xA8D0, 0xA8D9), (0xA8F2, 0xA8F7), (0xA8FB, 0xA8FB),
    (0xA8FD, 0xA8FE), (0xA900, 0xA925), (0xA930, 0xA946), (0xA960, 0xA97C),
    (0xA984, 0xA9B2), (0xA9CF, 0xA9D9), (0xA9E0, 0xA9E4), (0xA9E6, 0xA9FE),
    (0xAA00, 0xAA28), (0xAA40, 0xAA42), (0xAA44, 0xAA4B), (0xAA50, 0xAA59),
    (0xAA60, 0xAA76), (0xAA7A, 0xAA7A), (0xAA7E, 0xAAAF), (0xAAB1, 0xAAB1),
    (0xAAB5, 0xAAB6), (0xAAB9, 0xAABD), (0xAAC0, 0xAAC0), (0xAAC2, 0xAAC2),
    (0xAADB, 0xAADD), (0xAAE0, 0xAAEA), (0xAAF2, 0xAAF4), (0xAB01, 0xAB06),
    (0xAB09, 0xAB0E), (0xAB11, 0xAB16), (0xAB20, 0xAB26), (0xAB28, 0xAB2E),
    (0xAB30, 0xAB5A), (0xAB5C, 0xAB69), (0xAB70, 0xABE2), (0xABF0, 0xABF9),
    (0xAC00, 0xD7A3), (0xD7B0, 0xD7C6), (0xD7CB, 0xD7FB), (0xF900, 0xFA6D),
    (0xFA70, 0xFAD9), (0xFB00, 0xFB06), (0xFB13, 0xFB17), (0xFB1D, 0xFB1D),
    (0xFB1F, 0xFB28), (0xFB2A, 0xFB36), (0xFB38, 0xFB3C), (0xFB3E, 0xFB3E),
    (0xFB40, 0xFB41), (0xFB43, 0xFB44), (0xFB46, 0xFBB1), (0xFBD3, 0xFD3D),
    (0xFD50, 0xFD8F), (0xFD92, 0xFDC7), (0xFDF0, 0xFDFB), (0xFE70, 0xFE74),
    (0xFE76, 0xFEFC), (0xFF10, 0xFF19), (0xFF21, 0xFF3A), (0xFF41, 0xFF5A),
    (0xFF66, 0xFFBE), (0xFFC2, 0xFFC7), (0xFFCA, 0xFFCF), (0xFFD2, 0xFFD7),
    (0xFFDA, 0xFFDC), (0x10000, 0x1000B), (0x1000D, 0x10026), (0x10028, 0x1003A),
    (0x1003C, 0x1003D), (0x1003F, 0x1004D), (0x10050, 0x1005D), (0x10080, 0x100FA),
    (0x10107, 0x10133), (0x10140, 0x10178), (0x1018A, 0x1018B), (0x10280, 0x1029C),
    (0x102A0, 0x102D0), (0x102E1, 0x102FB), (0x10300, 0x10323), (0x1032D, 0x1034A),
    (0x10350, 0x10375), (0x10380, 0x1039D), (0x103A0, 0x103C3), (0x103C8, 0x103CF),
    (0x103D1, 0x103D5), (0x10400, 0x1049D), (0x104A0, 0x104A9), (0x104B0, 0x104D3),
    (0x104D8, 0x104FB), (0x10500, 0x10527), (0x10530, 0x10563), (0x10570, 0x1057A),
    (0x1057C, 0x1058A), (0x1058C, 0x10592), (0x10594, 0x10595), (0x10597, 0x105A1),
    (0x105A3, 0x105B1), (0x105B3, 0x105B9), (0x105BB, 0x105BC), (0x10600, 0x10736),
    (0x10740, 0x10755), (0x10760, 0x10767), (0x10780, 0x10785), (0x10787, 0x107B0),
    (0x107B2, 0x107BA), (0x10800, 0x10805), (0x10808, 0x10808), (0x1080A, 0x10835),
    (0x10837, 0x10838), (0x1083C, 0x1083C), (0x1083F, 0x10855), (0x10858, 0x10876),
    (0x10879, 0x1089E), (0x108A7, 0x108AF), (0x108E0, 0x108F2), (0x108F4, 0x108F5),
    (0x108FB, 0x1091B), (0x10920, 0x10939), (0x10980, 0x109B7), (0x109BC, 0x109CF),
    (0x109D2, 0x10A00), (0x10A10, 0x10A13), (0x10A15, 0x10A17), (0x10A19, 0x10A35),
    (0x10A40, 0x10A48), (0x10A60, 0x10A7E), (0x10A80, 0x10A9F), (0x10AC0, 0x10AC7),
    (0x10AC9, 0x10AE4), (0x10AEB, 0x10AEF), (0x10B00, 0x10B35), (0x10B40, 0x10B55),
    (0x10B58, 0x10B72), (0x10B78, 0x10B91), (0x10BA9, 0x10BAF), (0x10C00, 0x10C48),
    (0x10C80, 0x10CB2), (0x10CC0, 0x10CF2), (0x10CFA, 0x10D23), (0x10D30, 0x10D39),
    (0x10E60, 0x10E7E), (0x10E80, 0x10EA9), (0x10EB0, 0x10EB1), (0x10F00, 0x10F27),
    (0x10F30, 0x10F45), (0x10F51, 0x10F54), (0x10F70, 0x10F81), (0x10FB0, 0x10FCB),
    (0x10FE0, 0x10FF6), (0x11003, 0x11037), (0x11052, 0x1106F), (0x11071, 0x11072),
    (0x11075, 0x11075), (0x11083, 0x110AF), (0x110D0, 0x110E8), (0x110F0, 0x110F9),
    (0x11103, 0x11126), (0x11136, 0x1113F), (0x11144, 0x11144), (0x11147, 0x11147),
    (0x11150, 0x11172), (0x11176, 0x11176), (0x11183, 0x111B2), (0x111C1, 0x111C4),
    (0x111D0, 0x111DA), (0x111DC, 0x111DC), (0x111E1, 0x111F4), (0x11200, 0x11211),
    (0x11213, 0x1122B), (0x11280, 0x11286), (0x11288, 0x11288), (0x1128A, 0x1128D),
    (0x1128F, 0x1129D), (0x1129F, 0x112A8), (0x112B0, 0x112DE), (0x112F0, 0x112F9),
    (0x11305, 0x1130C), (0x1130F, 0x11310), (0x11313, 0x11328), (0x1132A, 0x11330),
    (0x11332, 0x11333), (0x11335, 0x11339), (0x1133D, 0x1133D), (0x11350, 0x11350),
    (0x1135D, 0x11361), (0x11400, 0x11434), (0x11447, 0x1144A), (0x11450, 0x11459),
    (0x1145F, 0x11461), (0x11480, 0x114AF), (0x114C4, 0x114C5), (0x114C7, 0x114C7),
    (0x114D0, 0x114D9), (0x11580, 0x115AE), (0x115D8, 0x115DB), (0x11600, 0x1162F),
    (0x11644, 0x11644), (0x11650, 0x11659), (0x11680, 0x116AA), (0x116B8, 0x116B8),
    (0x116C0, 0x116C9), (0x11700, 0x1171A), (0x11730, 0x1173B), (0x11740, 0x11746),
    (0x11800, 0x1182B), (0x118A0, 0x118F2), (0x118FF, 0x11906), (0x11909, 0x11909),
    (0x1190C, 0x11913), (0x11915, 0x11916), (0x11918, 0x1192F), (0x1193F, 0x1193F),
    (0x11941, 0x11941), (0x11950, 0x11959), (0x119A0, 0x119A7), (0x119AA, 0x119D0),
    (0x119E1, 0x119E1), (0x119E3, 0x119E3), (0x11A00, 0x11A00), (0x11A0B, 0x11A32),
    (0x11A3A, 0x11A3A), (0x11A50, 0x11A50), (0x11A5C, 0x11A89), (0x11A9D, 0x11A9D),
    (0x11AB0, 0x11AF8), (0x11C00, 0x11C08), (0x11C0A, 0x11C2E), (0x11C40, 0x11C40),
    (0x11C50, 0x11C6C), (0x11C72, 0x11C8F), (0x11D00, 0x11D06), (0x11D08, 0x11D09),
    (0x11D0B, 0x11D30), (0x11D46, 0x11D46), (0x11D50, 0x11D59), (0x11D60, 0x11D65),
    (0x11D67, 0x11D68), (0x11D6A, 0x11D89), (0x11D98, 0x11D98), (0x11DA0, 0x11DA9),
    (0x11EE0, 0x11EF2), (0x11FB0, 0x11FB0), (0x11FC0, 0x11FD4), (0x12000, 0x12399),
    (0x12400, 0x1246E), (0x12480, 0x12543), (0x12F90, 0x12FF0), (0x13000, 0x1342E),
    (0x14400, 0x14646), (0x16800, 0x16A38), (0x16A40, 0x16A5E), (0x16A60, 0x16A69),
    (0x16A70, 0x16ABE), (0x16AC0, 0x16AC9), (0x16AD0, 0x16AED), (0x16B00, 0x16B2F),
    (0x16B40, 0x16B43), (0x16B50, 0x16B59), (0x16B5B, 0x16B61), (0x16B63, 0x16B77),
    (0x16B7D, 0x16B8F), (0x16E40, 0x16E96), (0x16F00, 0x16F4A), (0x16F50, 0x16F50),
    (0x16F93, 0x16F9F), (0x16FE0, 0x16FE1), (0x16FE3, 0x16FE3), (0x17000, 0x187F7),
    (0x18800, 0x18CD5), (0x18D00, 0x18D08), (0x1AFF0, 0x1AFF3), (0x1AFF5, 0x1AFFB),
    (0x1AFFD, 0x1AFFE), (0x1B000, 0x1B122), (0x1B150, 0x1B152), (0x1B164, 0x1B167),
    (0x1B170, 0x1B2FB), (0x1BC00, 0x1BC6A), (0x1BC70, 0x1BC7C), (0x1BC80, 0x1BC88),
    (0x1BC90, 0x1BC99), (0x1D2E0, 0x1D2F3), (0x1D360, 0x1D378), (0x1D400, 0x1D454),
    (0x1D456, 0x1D49C), (0x1D49E, 0x1D49F), (0x1D4A2, 0x1D4A2), (0x1D4A5, 0x1D4A6),
    (0x1D4A9, 0x1D4AC), (0x1D4AE, 0x1D4B9), (0x1D4BB, 0x1D4BB), (0x1D4BD, 0x1D4C3),
    (0x1D4C5, 0x1D505), (0x1D507, 0x1D50A), (0x1D50D, 0x1D514), (0x1D516, 0x1D51C),
    (0x1D51E, 0x1D539), (0x1D53B, 0x1D53E), (0x1D540, 0x1D544), (0x1D546, 0x1D546),
    (0x1D54A, 0x1D550), (0x1D552, 0x1D6A5), (0x1D6A8, 0x1D6C0), (0x1D6C2, 0x1D6DA),
    (0x1D6DC, 0x1D6FA), (0x1D6FC, 0x1D714), (0x1D716, 0x1D734), (0x1D736, 0x1D74E),
    (0x1D750, 0x1D76E), (0x1D770, 0x1D788), (0x1D78A, 0x1D7A8), (0x1D7AA, 0x1D7C2),
    (0x1D7C4, 0x1D7CB), (0x1D7CE, 0x1D7FF), (0x1DF00, 0x1DF1E), (0x1E100, 0x1E12C),
    (0x1E137, 0x1E13D), (0x1E140, 0x1E149), (0x1E14E, 0x1E14E), (0x1E290, 0x1E2AD),
    (0x1E2C0, 0x1E2EB), (0x1E2F0, 0x1E2F9), (0x1E7E0, 0x1E7E6), (0x1E7E8, 0x1E7EB),
    (0x1E7ED, 0x1E7EE), (0x1E7F0, 0x1E7FE), (0x1E800, 0x1E8C4), (0x1E8C7, 0x1E8CF),
    (0x1E900, 0x1E943), (0x1E94B, 0x1E94B), (0x1E950, 0x1E959), (0x1EC71, 0x1ECAB),
    (0x1ECAD, 0x1ECAF), (0x1ECB1, 0x1ECB4), (0x1ED01, 0x1ED2D), (0x1ED2F, 0x1ED3D),
    (0x1EE00, 0x1EE03), (0x1EE05, 0x1EE1F), (0x1EE21, 0x1EE22), (0x1EE24, 0x1EE24),
    (0x1EE27, 0x1EE27), (0x1EE29, 0x1EE32), (0x1EE34, 0x1EE37), (0x1EE39, 0x1EE39),
    (0x1EE3B, 0x1EE3B), (0x1EE42, 0x1EE42), (0x1EE47, 0x1EE47), (0x1EE49, 0x1EE49),
    (0x1EE4B, 0x1EE4B), (0x1EE4D, 0x1EE4F), (0x1EE51, 0x1EE52), (0x1EE54, 0x1EE54),
    (0x1EE57, 0x1EE57), (0x1EE59, 0x1EE59), (0x1EE5B, 0x1EE5B), (0x1EE5D, 0x1EE5D),
    (0x1EE5F, 0x1EE5F), (0x1EE61, 0x1EE62), (0x1EE64, 0x1EE64), (0x1EE67, 0x1EE6A),
    (0x1EE6C, 0x1EE72), (0x1EE74, 0x1EE77), (0x1EE79, 0x1EE7C), (0x1EE7E, 0x1EE7E),
    (0x1EE80, 0x1EE89), (0x1EE8B, 0x1EE9B), (0x1EEA1, 0x1EEA3), (0x1EEA5, 0x1EEA9),
    (0x1EEAB, 0x1EEBB), (0x1F100, 0x1F10C), (0x1FBF0, 0x1FBF9), (0x20000, 0x2A6DF),
    (0x2A700, 0x2B738), (0x2B740, 0x2B81D), (0x2B820, 0x2CEA1), (0x2CEB0, 0x2EBE0),
    (0x2F800, 0x2FA1D), (0x30000, 0x3134A)]

/-- Whether a code point lies in one of the non-ASCII word intervals. -/
def inWordIntervals (n : Nat) : Bool :=
  wordIntervals.any fun p => decide (p.1 ≤ n) && decide (n ≤ p.2)

/-- Python's `\w`: the ASCII word characters `[a-zA-Z0-9_]` (`_` is 95)
or a non-ASCII Unicode word character. -/
def isWordChar (c : Char) : Bool :=
  isAddrChar c || decide (c.toNat = 95) || inWordIntervals c.toNat

/-- The signature class `[+\w/=]`: `+` (43), word characters, `/` (47),
`=` (61). -/
def isSigChar (c : Char) : Bool :=
  decide (c.toNat = 43) || isWordChar c || decide (c.toNat = 47) ||
    decide (c.toNat = 61)

/-- Python's `\s` for `str` patterns: tab 9, newline 10, vertical tab 11,
form feed 12, carriage return 13, the separators 28-31, space 32, next
line 0x85, no-break space 0xA0, ogham space 0x1680, the typographic
spaces 0x2000-0x200A, line separator 0x2028, paragraph separator 0x2029,
narrow no-break space 0x202F, medium mathematical space 0x205F and
ideographic space 0x3000. -/
def isPySpace (c : Char) : Bool :=
  decide ((9 ≤ c.toNat ∧ c.toNat ≤ 13) ∨ (28 ≤ c.toNat ∧ c.toNat ≤ 32) ∨
    c.toNat = 0x85 ∨ c.toNat = 0xA0 ∨ c.toNat = 0x1680 ∨
    (0x2000 ≤ c.toNat ∧ c.toNat ≤ 0x200A) ∨ c.toNat = 0x2028 ∨
    c.toNat = 0x2029 ∨ c.toNat = 0x202F ∨ c.toNat = 0x205F ∨
    c.toNat = 0x3000)

/-- One match of the pattern: the two named capture groups together with
the whitespace consumed by `\s+` between them. -/
structure MatchData where
  address : List Char
  ws : List Char
  signature : List Char
deriving DecidableEq

/-- A yielded result as the surrounding program uses it: the two named
groups `address` and `signature`. -/
structure Record where
  address : List Char
  signature : List Char
deriving DecidableEq

/-- The capture groups of a match. -/
def recordOf (m : MatchData) : Record :=
  ⟨m.address, m.signature⟩

/-- One anchored match attempt of the pattern at a line start, per the
determinization argument in the file header: the first character must be
`1` or `3`; the following complete alphanumeric run must have length
25-34 (the `{25,34}` bound); the following maximal whitespace run must be
nonempty (`\s+`); the following maximal signature run must be nonempty
(`[+\w/=]+`); and `$` requires what remains to be empty or to start with
`'\n'`.  On success it returns the match and the remaining text after the
match end. -/
def tryMatch (l : List Char) : Option (MatchData × List Char) :=
  match l with
  | [] => none
  | c :: r0 =>
    if (c == '1' || c == '3')
        && decide (25 ≤ (r0.takeWhile isAddrChar).length)
        && decide ((r0.takeWhile isAddrChar).length ≤ 34)
        && !((r0.dropWhile isAddrChar).takeWhile isPySpace).isEmpty
        && !(((r0.dropWhile isAddrChar).dropWhile isPySpace).takeWhile
              isSigChar).isEmpty
        && ((((r0.dropWhile isAddrChar).dropWhile isPySpace).dropWhile
              isSigChar).isEmpty
            || ((((r0.dropWhile isAddrChar).dropWhile isPySpace).dropWhile
                  isSigChar).head? == some '\n'))
    then some (⟨c :: r0.takeWhile isAddrChar,
               (r0.dropWhile isAddrChar).takeWhile isPySpace,
               ((r0.dropWhile isAddrChar).dropWhile isPySpace).takeWhile
                 isSigChar⟩,
               ((r0.dropWhile isAddrChar).dropWhile isPySpace).dropWhile
                 isSigChar)
    else none

/-- Skip one leading newline, if present (moving from a match end, which
sits just before a `'\n'` unless at end of input, to the next line
start). -/
def dropNl (l : List Char) : List Char :=
  if l.head? = some '\n' then l.tail else l

/-- Skip the current line and its terminating newline: after a failed
match attempt at a line start, `finditer`'s remaining attempts inside the
line all fail at `^`, so the scan resumes at the next line start. -/
def dropLine (l : List Char) : List Char :=
  dropNl (l.dropWhile fun c => c != '\n')

/-- The `finditer` scan over the text, anchored at line starts.  The fuel
argument makes the recursion structural; any fuel exceeding the length of
the text gives the same result (`scanFuel_congr`). -/
def scanFuel : Nat → List Char → List MatchData
  | 0, _ => []
  | _ + 1, [] => []
  | fuel + 1, c :: t =>
    match tryMatch (c :: t) with
    | some (m, rest) => m :: scanFuel fuel (dropNl rest)
    | none => scanFuel fuel (dropLine (c :: t))

/-- All matches yielded by `pattern.finditer` on the given text, in scan
order. -/
def extractMatches (l : List Char) : List MatchData :=
  scanFuel (l.length + 1) l

/-- The sequence of Records yielded by the Extractor: the capture groups
of each match, in scan order. -/
def extract (l : List Char) : List Record :=
  (extractMatches l).map recordOf

/-- The output loop `for match in matches: print(f"{addr} {sig}")`: each
record contributes its address, one space, its signature and the newline
appended by `print`. -/
def printLoop : List Record → List Char
  | [] => []
  | r :: rs => r.address ++ ' ' :: r.signature ++ '\n' :: printLoop rs

/-- The whole pipeline after the fetch: `soup.find("pre")` either signals
absence (`none`, on which `pre.get_text()` raises an uncaught
`AttributeError`, aborting the run before any extraction or printing) or
provides the preformatted text, on which the program prints every
extracted record. -/
def runProgram (pre : Option (List Char)) : Except Unit (List Char) :=
  match pre with
  | none => Except.error ()
  | some t => Except.ok (printLoop (extract t))

/-! ### Specification-side definitions

These are written from the specification's words, to be compared with the
code-side definitions above: lines of the input, the full-line two-field
shape of §4.1, the Record a qualifying line denotes, the §6 rendering of
a Record, and the §8 token shapes. -/

/-- The lines of a text: maximal runs of characters not containing a
newline character (the text after a final newline is a final empty
line). -/
def linesOf : List Char → List (List Char)
  | [] => [[]]
  | c :: t =>
    match linesOf t with
    | [] => [[c]]
    | h :: r => if c == '\n' then [] :: h :: r else (c :: h) :: r

/-- Whether an entire line matches the two-field shape of §4.1: an
address token (`1` or `3` plus 25-34 alphanumerics) starting at column 0,
one or more whitespace characters, then a signature token extending to
the end of the line with no trailing content.  The decomposition is
computed deterministically, which is faithful because the address class,
the whitespace class and the signature class are pairwise disjoint where
the boundaries lie. -/
def lineQualifies (li : List Char) : Bool :=
  match li with
  | [] => false
  | c :: r0 =>
    (c == '1' || c == '3')
      && decide (25 ≤ (r0.takeWhile isAddrChar).length)
      && decide ((r0.takeWhile isAddrChar).length ≤ 34)
      && !((r0.dropWhile isAddrChar).takeWhile isPySpace).isEmpty
      && !((r0.dropWhile isAddrChar).dropWhile isPySpace).isEmpty
      && ((r0.dropWhile isAddrChar).dropWhile isPySpace).all isSigChar

/-- The Record denoted by a qualifying line: the address token and the
signature token of its two-field decomposition. -/
def lineRecord (li : List Char) : Record :=
  match li with
  | [] => ⟨[], []⟩
  | c :: r0 =>
    ⟨c :: r0.takeWhile isAddrChar, (r0.dropWhile isAddrChar).dropWhile isPySpace⟩

/-- The §6 rendering of one Record: `<address><single space><signature>`. -/
def renderLine (r : Record) : List Char :=
  r.address ++ ' ' :: r.signature

/-- The §8 address shape `^[13][A-Za-z0-9]{25,34}$`. -/
def addressWellFormed (a : List Char) : Prop :=
  ∃ c t, a = c :: t ∧ (c = '1' ∨ c = '3') ∧ (∀ x ∈ t, isAddrChar x = true) ∧
    25 ≤ t.length ∧ t.length ≤ 34

/-- The §8 claimed signature shape `^[A-Za-z0-9_+/=]+$`: one or more
characters of that ASCII-only class. -/
def signatureWellFormed (s : List Char) : Prop :=
  s ≠ [] ∧ ∀ x ∈ s,
    isAddrChar x = true ∨ x = '_' ∨ x = '+' ∨ x = '/' ∨ x = '='

/-- The signature token shape actually enforced by the pattern: one or
more characters of the `[+\w/=]` class, `\w` being Python's Unicode word
class. -/
def signatureTokenShape (s : List Char) : Prop :=
  s ≠ [] ∧ ∀ x ∈ s, isSigChar x = true

/-! ### List toolkit -/

theorem takeWhile_append_all {α : Type} {p : α → Bool} {a : List α} (b : List α)
    (h : ∀ x ∈ a, p x = true) :
    (a ++ b).takeWhile p = a ++ b.takeWhile p := by
  induction a with
  | nil => simp
  | cons x xs ih =>
    have hx := h x (List.mem_cons_self x xs)
    have ihx := ih fun y hy => h y (List.mem_cons_of_mem x hy)
    simp [List.takeWhile_cons, hx, ihx]

theorem dropWhile_append_all {α : Type} {p : α → Bool} {a : List α} (b : List α)
    (h : ∀ x ∈ a, p x = true) :
    (a ++ b).dropWhile p = b.dropWhile p := by
  induction a with
  | nil => simp
  | cons x xs ih =>
    simp only [List.cons_append, List.dropWhile_cons, h x (List.mem_cons_self x xs),
      if_pos rfl]
    exact ih fun y hy => h y (List.mem_cons_of_mem x hy)

theorem takeWhile_append_stops {α : Type} {p : α → Bool} {a : List α} {b0 : α}
    (b1 : List α) (h : ∀ x ∈ a, p x = true) (hb : p b0 = false) :
    (a ++ b0 :: b1).takeWhile p = a := by
  rw [takeWhile_append_all _ h, List.takeWhile_cons, hb]
  simp

theorem dropWhile_append_stops {α : Type} {p : α → Bool} {a : List α} {b0 : α}
    (b1 : List α) (h : ∀ x ∈ a, p x = true) (hb : p b0 = false) :
    (a ++ b0 :: b1).dropWhile p = b0 :: b1 := by
  rw [dropWhile_append_all _ h, List.dropWhile_cons, hb]
  simp

theorem dropWhile_head_false {α : Type} {p : α → Bool} :
    ∀ (l : List α) {c : α} {t : List α}, l.dropWhile p = c :: t → p c = false := by
  intro l
  induction l with
  | nil => intro c t h; simp at h
  | cons x xs ih =>
    intro c t h
    rw [List.dropWhile_cons] at h
    by_cases hx : p x = true
    · exact ih (by simpa [hx] using h)
    · have hx' : p x = false := by simpa using hx
      obtain ⟨rfl, -⟩ := by simpa [hx'] using h
      exact hx'

theorem mem_of_mem_dropWhile {α : Type} {p : α → Bool} {l : List α} {x : α}
    (h : x ∈ l.dropWhile p) : x ∈ l :=
  (List.dropWhile_sublist p).mem h

/-! ### Character class facts -/

theorem space_not_addr {c : Char} (h : isPySpace c = true) : isAddrChar c = false := by
  simp only [isPySpace, decide_eq_true_eq] at h
  simp only [isAddrChar, decide_eq_false_iff_not]
  omega

/-- No whitespace code point of the `\s` class lies in the non-ASCII
word intervals (whitespace characters are never word characters). -/
theorem inWordIntervals_space {n : Nat}
    (h : (9 ≤ n ∧ n ≤ 13) ∨ (28 ≤ n ∧ n ≤ 32) ∨ n = 0x85 ∨ n = 0xA0 ∨
      n = 0x1680 ∨ (0x2000 ≤ n ∧ n ≤ 0x200A) ∨ n = 0x2028 ∨ n = 0x2029 ∨
      n = 0x202F ∨ n = 0x205F ∨ n = 0x3000) :
    inWordIntervals n = false := by
  rcases h with ⟨h1, h2⟩ | ⟨h1, h2⟩ | rfl | rfl | rfl | ⟨h1, h2⟩ | rfl | rfl |
    rfl | rfl | rfl
  · interval_cases n <;> decide
  · interval_cases n <;> decide
  · decide
  · decide
  · decide
  · interval_cases n <;> decide
  · decide
  · decide
  · decide
  · decide
  · decide

theorem space_not_sig {c : Char} (h : isPySpace c = true) : isSigChar c = false := by
  have haddr := space_not_addr h
  simp only [isPySpace, decide_eq_true_eq] at h
  have htab : inWordIntervals c.toNat = false := inWordIntervals_space h
  simp only [isSigChar, isWordChar, haddr, htab, Bool.or_eq_false_iff,
    Bool.false_or, Bool.or_false, decide_eq_false_iff_not]
  omega

theorem sig_not_space {c : Char} (h : isSigChar c = true) : isPySpace c = false := by
  cases hs : isPySpace c with
  | false => rfl
  | true => rw [space_not_sig hs] at h; exact absurd h (by simp)

theorem space_not_13 {c : Char} (h : isPySpace c = true) : (c == '1' || c == '3') = false := by
  simp only [isPySpace, decide_eq_true_eq] at h
  simp only [Bool.or_eq_false_iff, beq_eq_false_iff_ne, ne_eq]
  constructor
  · intro hc; subst hc; revert h; decide
  · intro hc; subst hc; revert h; decide

theorem addr_ne_nl {c : Char} (h : isAddrChar c = true) : c ≠ '\n' := by
  intro hc; subst hc; exact absurd h (by decide)

theorem sig_ne_nl {c : Char} (h : isSigChar c = true) : c ≠ '\n' := by
  intro hc; subst hc; exact absurd h (by decide)

/-! ### Facts about `linesOf` -/

theorem linesOf_ne_nil (l : List Char) : linesOf l ≠ [] := by
  cases l with
  | nil => simp [linesOf]
  | cons c t =>
    simp only [linesOf]
    rcases h : linesOf t with - | ⟨h0, r⟩
    · simp
    · by_cases hc : c == '\n' <;> simp [hc]

theorem linesOf_no_nl {l : List Char} (h : ∀ c ∈ l, c ≠ '\n') : linesOf l = [l] := by
  induction l with
  | nil => rfl
  | cons c t ih =>
    have ht := ih fun x hx => h x (List.mem_cons_of_mem c hx)
    have hc : (c == '\n') = false := by
      simpa using h c (List.mem_cons_self c t)
    simp [linesOf, ht, hc]

/-! ### Facts about `tryMatch` and the scan -/

theorem scanFuel_nil : ∀ f, scanFuel f [] = []
  | 0 => rfl
  | _ + 1 => rfl

theorem dropNl_length_le (l : List Char) : (dropNl l).length ≤ l.length := by
  unfold dropNl
  split
  · cases l <;> simp
  · exact le_rfl

theorem dropNl_nil : dropNl [] = [] := rfl

theorem dropNl_cons_nl (t : List Char) : dropNl ('\n' :: t) = t := rfl

theorem dropLine_length_le (c : Char) (t : List Char) :
    (dropLine (c :: t)).length ≤ t.length := by
  unfold dropLine
  by_cases hc : c = '\n'
  · subst hc
    rw [List.dropWhile_cons]
    simp [dropNl]
  · rw [List.dropWhile_cons]
    have hcb : (c != '\n') = true := by simpa using hc
    simp only [hcb, if_pos]
    calc (dropNl (t.dropWhile fun x => x != '\n')).length
        ≤ (t.dropWhile fun x => x != '\n').length := dropNl_length_le _
      _ ≤ t.length := (List.dropWhile_sublist _).length_le

/-- Inversion of a successful match attempt. -/
theorem tryMatch_eq_some {l : List Char} {m : MatchData} {rest : List Char}
    (h : tryMatch l = some (m, rest)) :
    ∃ c r0, l = c :: r0 ∧
      m.address = c :: r0.takeWhile isAddrChar ∧
      m.ws = (r0.dropWhile isAddrChar).takeWhile isPySpace ∧
      m.signature = ((r0.dropWhile isAddrChar).dropWhile isPySpace).takeWhile isSigChar ∧
      rest = ((r0.dropWhile isAddrChar).dropWhile isPySpace).dropWhile isSigChar ∧
      (c = '1' ∨ c = '3') ∧
      25 ≤ (r0.takeWhile isAddrChar).length ∧ (r0.takeWhile isAddrChar).length ≤ 34 ∧
      m.ws ≠ [] ∧ m.signature ≠ [] ∧
      (rest = [] ∨ rest.head? = some '\n') := by
  cases l with
  | nil => exact absurd h (by simp [tryMatch])
  | cons c r0 =>
    refine ⟨c, r0, rfl, ?_⟩
    simp only [tryMatch] at h
    split at h
    · rename_i hcond
      simp only [Option.some.injEq, Prod.mk.injEq] at h
      obtain ⟨hm, hrest⟩ := h
      subst hm
      subst hrest
      simp only [Bool.and_eq_true, Bool.or_eq_true, beq_iff_eq, decide_eq_true_eq,
        Bool.not_eq_true', List.isEmpty_eq_false, List.isEmpty_eq_true,
        ne_eq] at hcond
      obtain ⟨⟨⟨⟨⟨h13, h25⟩, h34⟩, hws⟩, hsg⟩, hend⟩ := hcond
      refine ⟨rfl, rfl, rfl, rfl, h13, h25, h34, hws, hsg, ?_⟩
      rcases hend with hend | hend
      · exact Or.inl hend
      · exact Or.inr (by simpa using hend)
    · exact absurd h (by simp)

theorem tryMatch_rest_length {l : List Char} {m : MatchData} {rest : List Char}
    (h : tryMatch l = some (m, rest)) : rest.length < l.length := by
  obtain ⟨c, r0, rfl, -, -, -, hrest, -⟩ := tryMatch_eq_some h
  subst hrest
  calc (((r0.dropWhile isAddrChar).dropWhile isPySpace).dropWhile isSigChar).length
      ≤ ((r0.dropWhile isAddrChar).dropWhile isPySpace).length :=
        (List.dropWhile_sublist _).length_le
    _ ≤ (r0.dropWhile isAddrChar).length := (List.dropWhile_sublist _).length_le
    _ ≤ r0.length := (List.dropWhile_sublist _).length_le
    _ < (c :: r0).length := by simp

theorem scanFuel_congr : ∀ f g l, l.length < f → l.length < g →
    scanFuel f l = scanFuel g l := by
  intro f
  induction f with
  | zero => intro g l hf; omega
  | succ f ih =>
    intro g l hf hg
    cases g with
    | zero => omega
    | succ g =>
      cases l with
      | nil => rfl
      | cons c t =>
        simp only [scanFuel]
        rcases htm : tryMatch (c :: t) with - | ⟨m, rest⟩
        · have hlen := dropLine_length_le c t
          have := ih g (dropLine (c :: t)) (by simp at hf; omega) (by simp at hg; omega)
          simp [this]
        · have hlen : rest.length < (c :: t).length := tryMatch_rest_length htm
          have hd := dropNl_length_le rest
          have := ih g (dropNl rest) (by simp at hf hlen; omega) (by simp at hg hlen; omega)
          simp [this]

theorem extractMatches_nil : extractMatches [] = [] := rfl

theorem extractMatches_cons_some {c : Char} {t : List Char} {m : MatchData}
    {rest : List Char} (h : tryMatch (c :: t) = some (m, rest)) :
    extractMatches (c :: t) = m :: extractMatches (dropNl rest) := by
  unfold extractMatches
  rw [show (c :: t).length + 1 = (t.length + 1) + 1 by simp]
  simp only [scanFuel, h]
  have hlen : rest.length < (c :: t).length := tryMatch_rest_length h
  have hd := dropNl_length_le rest
  rw [scanFuel_congr (t.length + 1) ((dropNl rest).length + 1) (dropNl rest)
    (by simp at hlen; omega) (by omega)]

theorem extractMatches_cons_none {c : Char} {t : List Char}
    (h : tryMatch (c :: t) = none) :
    extractMatches (c :: t) = extractMatches (dropLine (c :: t)) := by
  unfold extractMatches
  rw [show (c :: t).length + 1 = (t.length + 1) + 1 by simp]
  simp only [scanFuel, h]
  have hlen := dropLine_length_le c t
  rw [scanFuel_congr (t.length + 1) ((dropLine (c :: t)).length + 1) (dropLine (c :: t))
    (by omega) (by omega)]

theorem linesOf_append_nl (a b : List Char) :
    linesOf (a ++ '\n' :: b) = linesOf a ++ linesOf b := by
  induction a with
  | nil =>
    rcases hb : linesOf b with - | ⟨b0, br⟩
    · exact absurd hb (linesOf_ne_nil _)
    · simp [linesOf, hb]
  | cons c t ih =>
    rcases h : linesOf (t ++ '\n' :: b) with - | ⟨h0, r⟩
    · exact absurd h (linesOf_ne_nil _)
    rcases ht : linesOf t with - | ⟨t0, tr⟩
    · exact absurd ht (linesOf_ne_nil _)
    rw [h, ht] at ih
    obtain ⟨rfl, rfl⟩ : h0 = t0 ∧ r = tr ++ linesOf b := by simpa using ih
    by_cases hc : c == '\n' <;> simp [List.cons_append, linesOf, h, ht, hc]

/-! ### Computing a match attempt on decomposed text

These lemmas record the determinization argument: on text of the form
address, whitespace run, signature run, remainder, the match attempt
succeeds exactly when the remainder starts with a newline or is empty. -/

theorem tryMatch_parts_some {c : Char} {body ws sg R : List Char}
    (h13 : c = '1' ∨ c = '3')
    (hbody : ∀ x ∈ body, isAddrChar x = true)
    (h25 : 25 ≤ body.length) (h34 : body.length ≤ 34)
    (hws : ∀ x ∈ ws, isPySpace x = true) (hwsne : ws ≠ [])
    (hsg : ∀ x ∈ sg, isSigChar x = true) (hsgne : sg ≠ [])
    (hR : R = [] ∨ R.head? = some '\n') :
    tryMatch (c :: (body ++ (ws ++ (sg ++ R)))) = some (⟨c :: body, ws, sg⟩, R) := by
  rcases List.exists_cons_of_ne_nil hwsne with ⟨w0, w1, rfl⟩
  rcases List.exists_cons_of_ne_nil hsgne with ⟨s0, s1, rfl⟩
  have hw0 : isPySpace w0 = true := hws w0 (List.mem_cons_self _ _)
  have hs0 : isSigChar s0 = true := hsg s0 (List.mem_cons_self _ _)
  have e1 : (body ++ (w0 :: w1 ++ (s0 :: s1 ++ R))).takeWhile isAddrChar = body := by
    rw [show body ++ (w0 :: w1 ++ (s0 :: s1 ++ R)) =
      body ++ w0 :: (w1 ++ (s0 :: s1 ++ R)) by simp]
    exact takeWhile_append_stops _ hbody (space_not_addr hw0)
  have e2 : (body ++ (w0 :: w1 ++ (s0 :: s1 ++ R))).dropWhile isAddrChar =
      w0 :: w1 ++ (s0 :: s1 ++ R) := by
    rw [show body ++ (w0 :: w1 ++ (s0 :: s1 ++ R)) =
      body ++ w0 :: (w1 ++ (s0 :: s1 ++ R)) by simp]
    rw [dropWhile_append_stops _ hbody (space_not_addr hw0)]
    simp
  have e3 : (w0 :: w1 ++ (s0 :: s1 ++ R)).takeWhile isPySpace = w0 :: w1 := by
    rw [show (w0 :: w1 : List Char) ++ (s0 :: s1 ++ R) =
      (w0 :: w1) ++ s0 :: (s1 ++ R) by simp]
    exact takeWhile_append_stops _ hws (sig_not_space hs0)
  have e4 : (w0 :: w1 ++ (s0 :: s1 ++ R)).dropWhile isPySpace = s0 :: s1 ++ R := by
    rw [show (w0 :: w1 : List Char) ++ (s0 :: s1 ++ R) =
      (w0 :: w1) ++ s0 :: (s1 ++ R) by simp]
    rw [dropWhile_append_stops _ hws (sig_not_space hs0)]
    simp
  have e5 : ((s0 :: s1 : List Char) ++ R).takeWhile isSigChar = s0 :: s1 := by
    rcases hR with rfl | hR
    · rw [List.append_nil, List.takeWhile_eq_self_iff.mpr hsg]
    · rcases R with - | ⟨R0, R1⟩
      · simp at hR
      · have hR0 : R0 = '\n' := by simpa using hR
        subst hR0
        exact takeWhile_append_stops _ hsg (by decide)
  have e6 : ((s0 :: s1 : List Char) ++ R).dropWhile isSigChar = R := by
    rcases hR with rfl | hR
    · rw [List.append_nil, List.dropWhile_eq_nil_iff.mpr hsg]
    · rcases R with - | ⟨R0, R1⟩
      · simp at hR
      · have hR0 : R0 = '\n' := by simpa using hR
        subst hR0
        exact dropWhile_append_stops _ hsg (by decide)
  have h13b : (c == '1' || c == '3') = true := by
    rcases h13 with rfl | rfl <;> simp
  simp only [tryMatch, e1, e2, e3, e4, e5, e6]
  rw [if_pos]
  simp only [Bool.and_eq_true, h13b, decide_eq_true_eq, true_and]
  refine ⟨⟨⟨⟨h25, h34⟩, by simp⟩, by simp⟩, ?_⟩
  rcases hR with rfl | hR
  · simp
  · simp [hR]

theorem tryMatch_parts_none {c R0 : Char} {body ws sg R1 : List Char}
    (hbody : ∀ x ∈ body, isAddrChar x = true)
    (hws : ∀ x ∈ ws, isPySpace x = true) (hwsne : ws ≠ [])
    (hsg : ∀ x ∈ sg, isSigChar x = true) (hsgne : sg ≠ [])
    (hR0nl : R0 ≠ '\n') (hR0sig : isSigChar R0 = false) :
    tryMatch (c :: (body ++ (ws ++ (sg ++ R0 :: R1)))) = none := by
  rcases List.exists_cons_of_ne_nil hwsne with ⟨w0, w1, rfl⟩
  rcases List.exists_cons_of_ne_nil hsgne with ⟨s0, s1, rfl⟩
  have hw0 : isPySpace w0 = true := hws w0 (List.mem_cons_self _ _)
  have hs0 : isSigChar s0 = true := hsg s0 (List.mem_cons_self _ _)
  have e2 : (body ++ (w0 :: w1 ++ (s0 :: s1 ++ R0 :: R1))).dropWhile isAddrChar =
      w0 :: w1 ++ (s0 :: s1 ++ R0 :: R1) := by
    rw [show body ++ (w0 :: w1 ++ (s0 :: s1 ++ R0 :: R1)) =
      body ++ w0 :: (w1 ++ (s0 :: s1 ++ R0 :: R1)) by simp]
    rw [dropWhile_append_stops _ hbody (space_not_addr hw0)]
    simp
  have e4 : (w0 :: w1 ++ (s0 :: s1 ++ R0 :: R1)).dropWhile isPySpace =
      s0 :: s1 ++ R0 :: R1 := by
    rw [show (w0 :: w1 : List Char) ++ (s0 :: s1 ++ R0 :: R1) =
      (w0 :: w1) ++ s0 :: (s1 ++ R0 :: R1) by simp]
    rw [dropWhile_append_stops _ hws (sig_not_space hs0)]
    simp
  have e6 : ((s0 :: s1 : List Char) ++ R0 :: R1).dropWhile isSigChar = R0 :: R1 :=
    dropWhile_append_stops _ hsg hR0sig
  simp only [tryMatch, e2, e4, e6]
  rw [if_neg]
  simp only [Bool.and_eq_true, not_and]
  intro _
  simp [hR0nl]

/-! ### Which decomposed lines satisfy the full-line shape -/

theorem lineQualifies_parts {c : Char} {body ws sg : List Char}
    (h13 : c = '1' ∨ c = '3')
    (hbody : ∀ x ∈ body, isAddrChar x = true)
    (h25 : 25 ≤ body.length) (h34 : body.length ≤ 34)
    (hws : ∀ x ∈ ws, isPySpace x = true) (hwsne : ws ≠ [])
    (hsg : ∀ x ∈ sg, isSigChar x = true) (hsgne : sg ≠ []) :
    lineQualifies (c :: (body ++ (ws ++ sg))) = true ∧
      lineRecord (c :: (body ++ (ws ++ sg))) = ⟨c :: body, sg⟩ := by
  rcases List.exists_cons_of_ne_nil hwsne with ⟨w0, w1, rfl⟩
  rcases List.exists_cons_of_ne_nil hsgne with ⟨s0, s1, rfl⟩
  have hw0 : isPySpace w0 = true := hws w0 (List.mem_cons_self _ _)
  have hs0 : isSigChar s0 = true := hsg s0 (List.mem_cons_self _ _)
  have e1 : (body ++ (w0 :: w1 ++ s0 :: s1)).takeWhile isAddrChar = body := by
    rw [show body ++ (w0 :: w1 ++ s0 :: s1) = body ++ w0 :: (w1 ++ s0 :: s1) by simp]
    exact takeWhile_append_stops _ hbody (space_not_addr hw0)
  have e2 : (body ++ (w0 :: w1 ++ s0 :: s1)).dropWhile isAddrChar =
      w0 :: w1 ++ s0 :: s1 := by
    rw [show body ++ (w0 :: w1 ++ s0 :: s1) = body ++ w0 :: (w1 ++ s0 :: s1) by simp]
    rw [dropWhile_append_stops _ hbody (space_not_addr hw0)]
    simp
  have e3 : (w0 :: w1 ++ s0 :: s1).takeWhile isPySpace = w0 :: w1 :=
    takeWhile_append_stops _ hws (sig_not_space hs0)
  have e4 : (w0 :: w1 ++ s0 :: s1).dropWhile isPySpace = s0 :: s1 :=
    dropWhile_append_stops _ hws (sig_not_space hs0)
  have h13b : (c == '1' || c == '3') = true := by
    rcases h13 with rfl | rfl <;> simp
  have hsg1 : ∀ x ∈ s1, isSigChar x = true := fun x hx =>
    hsg x (List.mem_cons_of_mem _ hx)
  constructor
  · simp only [lineQualifies, e1, e2, e3, e4]
    simp [h13b, h25, h34, List.all_eq_true, hs0]
    exact hsg1
  · simp only [lineRecord, e1, e2, e4]

theorem lineQualifies_nil : lineQualifies [] = false := rfl

theorem lineQualifies_space_line {w : List Char}
    (hw : ∀ x ∈ w, isPySpace x = true) : lineQualifies w = false := by
  cases w with
  | nil => rfl
  | cons w0 w1 =>
    have hw0 := hw w0 (List.mem_cons_self _ _)
    simp [lineQualifies, space_not_13 hw0]

theorem lineQualifies_space_sig_line {w sg : List Char}
    (hw : ∀ x ∈ w, isPySpace x = true)
    (hsg : ∀ x ∈ sg, isSigChar x = true) :
    lineQualifies (w ++ sg) = false := by
  cases w with
  | cons w0 w1 =>
    have hw0 := hw w0 (List.mem_cons_self _ _)
    simp [lineQualifies, space_not_13 hw0]
  | nil =>
    simp only [List.nil_append]
    cases sg with
    | nil => rfl
    | cons s0 s1 =>
      have e : (s1.dropWhile isAddrChar).takeWhile isPySpace = [] := by
        rcases hd : s1.dropWhile isAddrChar with - | ⟨d0, d1⟩
        · rfl
        · have hd0 : isSigChar d0 = true := by
            refine hsg d0 (List.mem_cons_of_mem _ ?_)
            exact mem_of_mem_dropWhile (by rw [hd]; exact List.mem_cons_self _ _)
          rw [List.takeWhile_cons, sig_not_space hd0]
          simp
      simp [lineQualifies, e]

theorem lineQualifies_addr_space_line {c : Char} {body w : List Char}
    (hbody : ∀ x ∈ body, isAddrChar x = true)
    (hw : ∀ x ∈ w, isPySpace x = true) :
    lineQualifies (c :: (body ++ w)) = false := by
  cases w with
  | nil =>
    have e : body.dropWhile isAddrChar = [] :=
      List.dropWhile_eq_nil_iff.mpr hbody
    rw [List.append_nil]
    simp [lineQualifies, e]
  | cons w0 w1 =>
    have hw0 := hw w0 (List.mem_cons_self _ _)
    have e2 : (body ++ w0 :: w1).dropWhile isAddrChar = w0 :: w1 :=
      dropWhile_append_stops _ hbody (space_not_addr hw0)
    have e4 : ((w0 :: w1).dropWhile isPySpace : List Char) = [] :=
      List.dropWhile_eq_nil_iff.mpr hw
    simp [lineQualifies, e2, e4]

/-- A line satisfying the full-line shape decomposes into its address
token, separating whitespace and signature token. -/
theorem lineQualifies_decomp {F : List Char} (h : lineQualifies F = true) :
    ∃ c body ws sg, F = c :: (body ++ (ws ++ sg)) ∧ (c = '1' ∨ c = '3') ∧
      (∀ x ∈ body, isAddrChar x = true) ∧ 25 ≤ body.length ∧ body.length ≤ 34 ∧
      (∀ x ∈ ws, isPySpace x = true) ∧ ws ≠ [] ∧
      (∀ x ∈ sg, isSigChar x = true) ∧ sg ≠ [] ∧
      lineRecord F = ⟨c :: body, sg⟩ := by
  cases F with
  | nil => exact absurd h (by simp [lineQualifies])
  | cons c r0 =>
    simp only [lineQualifies, Bool.and_eq_true, Bool.or_eq_true, beq_iff_eq,
      decide_eq_true_eq, Bool.not_eq_true', List.isEmpty_eq_false,
      List.all_eq_true, ne_eq] at h
    obtain ⟨⟨⟨⟨⟨h13, h25⟩, h34⟩, hws⟩, hsg⟩, hall⟩ := h
    refine ⟨c, r0.takeWhile isAddrChar, (r0.dropWhile isAddrChar).takeWhile isPySpace,
      (r0.dropWhile isAddrChar).dropWhile isPySpace, ?_, h13, ?_, h25, h34, ?_, hws,
      hall, hsg, rfl⟩
    · rw [List.takeWhile_append_dropWhile, List.takeWhile_append_dropWhile]
    · exact fun x hx => List.mem_takeWhile_imp hx
    · exact fun x hx => List.mem_takeWhile_imp hx

/-- A text whose first line satisfies the full-line shape yields a match
consuming exactly that line. -/
theorem tryMatch_of_qualifying {F R : List Char} (h : lineQualifies F = true)
    (hR : R = [] ∨ R.head? = some '\n') :
    ∃ m, tryMatch (F ++ R) = some (m, R) ∧ recordOf m = lineRecord F := by
  obtain ⟨c, body, ws, sg, rfl, h13, hbody, h25, h34, hws, hwsne, hsg, hsgne, hrec⟩ :=
    lineQualifies_decomp h
  refine ⟨⟨c :: body, ws, sg⟩, ?_, ?_⟩
  · rw [show (c :: (body ++ (ws ++ sg))) ++ R = c :: (body ++ (ws ++ (sg ++ R)))
      by simp]
    exact tryMatch_parts_some h13 hbody h25 h34 hws hwsne hsg hsgne hR
  · rw [hrec]
    rfl

/-- No line of a region made of whitespace followed by signature
characters satisfies the full-line shape (the signature tail of a
line-spanning match and the whitespace-only lines inside it never
qualify). -/
theorem filter_linesOf_space_sig :
    ∀ n (w sg : List Char), w.length ≤ n →
      (∀ x ∈ w, isPySpace x = true) → (∀ x ∈ sg, isSigChar x = true) →
      (linesOf (w ++ sg)).filter lineQualifies = [] := by
  intro n
  induction n with
  | zero =>
    intro w sg hlen hw hsg
    have hwnil : w = [] := List.eq_nil_of_length_eq_zero (Nat.le_zero.mp hlen)
    subst hwnil
    rw [List.nil_append, linesOf_no_nl fun x hx => sig_ne_nl (hsg x hx)]
    have := @lineQualifies_space_sig_line [] sg (by simp) hsg
    simp only [List.nil_append] at this
    simp [List.filter, this]
  | succ n ih =>
    intro w sg hlen hw hsg
    rcases hd : w.dropWhile (fun x => x != '\n') with - | ⟨d0, d1⟩
    · have hwnl : ∀ x ∈ w, x ≠ '\n' := by
        rw [List.dropWhile_eq_nil_iff] at hd
        intro x hx
        simpa using hd x hx
      rw [linesOf_no_nl fun x hx => by
        rcases List.mem_append.mp hx with hx | hx
        · exact hwnl x hx
        · exact sig_ne_nl (hsg x hx)]
      simp [List.filter, lineQualifies_space_sig_line hw hsg]
    · have hd0 : d0 = '\n' := by
        have := dropWhile_head_false _ hd
        simpa using this
      subst hd0
      have hw' : w = w.takeWhile (fun x => x != '\n') ++ '\n' :: d1 := by
        conv_lhs => rw [← List.takeWhile_append_dropWhile (fun x => x != '\n') w]
        rw [hd]
      have hsplit : w ++ sg = w.takeWhile (fun x => x != '\n') ++ '\n' :: (d1 ++ sg) := by
        conv_lhs => rw [hw']
        simp
      rw [hsplit, linesOf_append_nl, List.filter_append]
      have hwtnl : ∀ x ∈ w.takeWhile (fun x => x != '\n'), x ≠ '\n' := fun x hx => by
        have := List.mem_takeWhile_imp hx
        simpa using this
      have hwtsp : ∀ x ∈ w.takeWhile (fun x => x != '\n'), isPySpace x = true :=
        fun x hx => hw x ((List.takeWhile_sublist _).subset hx)
      have hd1sp : ∀ x ∈ d1, isPySpace x = true := fun x hx =>
        hw x (by rw [hw']; exact List.mem_append_right _ (List.mem_cons_of_mem _ hx))
      have hlen1 : d1.length ≤ n := by
        have := congrArg List.length hw'
        simp only [List.length_append, List.length_cons] at this
        omega
      rw [linesOf_no_nl hwtnl, ih d1 sg hlen1 hd1sp hsg]
      simp [List.filter, lineQualifies_space_line hwtsp]

/-- No line of the region consumed by a match whose separating whitespace
contains a newline satisfies the full-line shape. -/
theorem filter_linesOf_region_eq_nil {c : Char} {body ws sg : List Char}
    (h13 : c = '1' ∨ c = '3')
    (hbody : ∀ x ∈ body, isAddrChar x = true)
    (hws : ∀ x ∈ ws, isPySpace x = true)
    (hsg : ∀ x ∈ sg, isSigChar x = true)
    (hnl : '\n' ∈ ws) :
    (linesOf (c :: (body ++ (ws ++ sg)))).filter lineQualifies = [] := by
  rcases hd : ws.dropWhile (fun x => x != '\n') with - | ⟨d0, d1⟩
  · exfalso
    rw [List.dropWhile_eq_nil_iff] at hd
    have := hd '\n' hnl
    simp at this
  · have hd0 : d0 = '\n' := by
      have := dropWhile_head_false _ hd
      simpa using this
    subst hd0
    have hw' : ws = ws.takeWhile (fun x => x != '\n') ++ '\n' :: d1 := by
      conv_lhs => rw [← List.takeWhile_append_dropWhile (fun x => x != '\n') ws]
      rw [hd]
    have hsplit : c :: (body ++ (ws ++ sg)) =
        (c :: (body ++ ws.takeWhile (fun x => x != '\n'))) ++ '\n' :: (d1 ++ sg) := by
      conv_lhs => rw [hw']
      simp
    rw [hsplit, linesOf_append_nl, List.filter_append]
    have hwtnl : ∀ x ∈ ws.takeWhile (fun x => x != '\n'), x ≠ '\n' := fun x hx => by
      have := List.mem_takeWhile_imp hx
      simpa using this
    have hwtsp : ∀ x ∈ ws.takeWhile (fun x => x != '\n'), isPySpace x = true :=
      fun x hx => hws x ((List.takeWhile_sublist _).subset hx)
    have hfirstnl : ∀ x ∈ c :: (body ++ ws.takeWhile (fun x => x != '\n')), x ≠ '\n' := by
      intro x hx
      rcases List.mem_cons.mp hx with rfl | hx
      · rcases h13 with rfl | rfl <;> decide
      · rcases List.mem_append.mp hx with hx | hx
        · exact addr_ne_nl (hbody x hx)
        · exact hwtnl x hx
    have hd1sp : ∀ x ∈ d1, isPySpace x = true := fun x hx =>
      hws x (by rw [hw']; exact List.mem_append_right _ (List.mem_cons_of_mem _ hx))
    rw [linesOf_no_nl hfirstnl,
      filter_linesOf_space_sig d1.length d1 sg le_rfl hd1sp hsg]
    simp [List.filter, lineQualifies_addr_space_line hbody hwtsp]

/-- Spec-side effect of one successful match step: the qualifying lines
of the consumed region contribute exactly the region's Record when the
match stays on one line, and nothing when its whitespace spans lines. -/
theorem step_some {c : Char} {body ws sg rest : List Char}
    (h13 : c = '1' ∨ c = '3') (hbody : ∀ x ∈ body, isAddrChar x = true)
    (h25 : 25 ≤ body.length) (h34 : body.length ≤ 34)
    (hws : ∀ x ∈ ws, isPySpace x = true) (hwsne : ws ≠ [])
    (hsg : ∀ x ∈ sg, isSigChar x = true) (hsgne : sg ≠ [])
    (hRor : rest = [] ∨ rest.head? = some '\n') :
    ((linesOf (c :: (body ++ (ws ++ (sg ++ rest))))).filter lineQualifies).map
        lineRecord =
      (if '\n' ∈ ws then [] else [(⟨c :: body, sg⟩ : Record)]) ++
        ((linesOf (dropNl rest)).filter lineQualifies).map lineRecord := by
  have hsplit : ∀ r' : List Char,
      c :: (body ++ (ws ++ (sg ++ '\n' :: r'))) =
        (c :: (body ++ (ws ++ sg))) ++ '\n' :: r' := by
    intro r'
    simp
  by_cases hnl : '\n' ∈ ws
  · rw [if_pos hnl]
    rcases hRor with rfl | hR
    · rw [List.append_nil, dropNl_nil, filter_linesOf_region_eq_nil h13 hbody hws hsg hnl]
      simp [linesOf, List.filter, lineQualifies_nil]
    · rcases rest with - | ⟨R0, R1⟩
      · simp at hR
      have hR0 : R0 = '\n' := by simpa using hR
      subst hR0
      rw [hsplit R1, linesOf_append_nl, List.filter_append, List.map_append,
        filter_linesOf_region_eq_nil h13 hbody hws hsg hnl, dropNl_cons_nl]
      simp
  · rw [if_neg hnl]
    have hwsnl : ∀ x ∈ ws, x ≠ '\n' := fun x hx h => hnl (h ▸ hx)
    have hfirstnl : ∀ x ∈ c :: (body ++ (ws ++ sg)), x ≠ '\n' := by
      intro x hx
      rcases List.mem_cons.mp hx with rfl | hx
      · rcases h13 with rfl | rfl <;> decide
      · rcases List.mem_append.mp hx with hx | hx
        · exact addr_ne_nl (hbody x hx)
        · rcases List.mem_append.mp hx with hx | hx
          · exact hwsnl x hx
          · exact sig_ne_nl (hsg x hx)
    obtain ⟨hqual, hrec⟩ := lineQualifies_parts h13 hbody h25 h34 hws hwsne hsg hsgne
    rcases hRor with rfl | hR
    · rw [List.append_nil, dropNl_nil, linesOf_no_nl hfirstnl]
      simp [List.filter, hqual, hrec, linesOf, lineQualifies_nil]
    · rcases rest with - | ⟨R0, R1⟩
      · simp at hR
      have hR0 : R0 = '\n' := by simpa using hR
      subst hR0
      rw [hsplit R1, linesOf_append_nl, List.filter_append, List.map_append,
        linesOf_no_nl hfirstnl, dropNl_cons_nl]
      simp [List.filter, hqual, hrec]

/-- Main structural lemma: the Records of the qualifying lines form an
order-preserving sublist of the extracted Records.  (It is a proper
sublist exactly when some match spans several lines.) -/
theorem extract_sublist_aux :
    ∀ n (l : List Char), l.length ≤ n →
      List.Sublist (((linesOf l).filter lineQualifies).map lineRecord) (extract l) := by
  intro n
  induction n with
  | zero =>
    intro l hlen
    have hnil : l = [] := List.eq_nil_of_length_eq_zero (Nat.le_zero.mp hlen)
    subst hnil
    simp [linesOf, List.filter, lineQualifies_nil, extract, extractMatches_nil]
  | succ n ih =>
    intro l hlen
    cases l with
    | nil => simp [linesOf, List.filter, lineQualifies_nil, extract, extractMatches_nil]
    | cons c t =>
      rcases htm : tryMatch (c :: t) with - | ⟨m, rest⟩
      · -- failed attempt: the first line does not qualify and is skipped
        have hext : extract (c :: t) = extract (dropLine (c :: t)) := by
          unfold extract
          rw [extractMatches_cons_none htm]
        have hFq : lineQualifies ((c :: t).takeWhile (fun x => x != '\n')) = false := by
          by_contra hq
          have hq' : lineQualifies ((c :: t).takeWhile (fun x => x != '\n')) = true := by
            simpa using hq
          have hR : (c :: t).dropWhile (fun x => x != '\n') = [] ∨
              ((c :: t).dropWhile (fun x => x != '\n')).head? = some '\n' := by
            rcases hd : (c :: t).dropWhile (fun x => x != '\n') with - | ⟨R0, R1⟩
            · exact Or.inl rfl
            · right
              have hR0 := dropWhile_head_false _ hd
              simp only [bne_eq_false_iff_eq] at hR0
              simp [hR0]
          obtain ⟨m', hsome, -⟩ := tryMatch_of_qualifying hq' hR
          rw [List.takeWhile_append_dropWhile, htm] at hsome
          exact absurd hsome (by simp)
        rcases hd : (c :: t).dropWhile (fun x => x != '\n') with - | ⟨R0, R1⟩
        · have hnl : ∀ x ∈ c :: t, x ≠ '\n' := by
            rw [List.dropWhile_eq_nil_iff] at hd
            intro x hx
            simpa using hd x hx
          have hFl : (c :: t).takeWhile (fun x => x != '\n') = c :: t :=
            List.takeWhile_eq_self_iff.mpr fun x hx => by simpa using hnl x hx
          rw [linesOf_no_nl hnl]
          rw [hFl] at hFq
          simp [List.filter, hFq]
        · have hR0 : R0 = '\n' := by
            have := dropWhile_head_false _ hd
            simpa using this
          subst hR0
          have hsplit : c :: t = (c :: t).takeWhile (fun x => x != '\n') ++ '\n' :: R1 := by
            conv_lhs => rw [← List.takeWhile_append_dropWhile (fun x => x != '\n') (c :: t)]
            rw [hd]
          have hdl : dropLine (c :: t) = R1 := by
            unfold dropLine
            rw [hd, dropNl_cons_nl]
          have hFnl : ∀ x ∈ (c :: t).takeWhile (fun x => x != '\n'), x ≠ '\n' :=
            fun x hx => by
              have := List.mem_takeWhile_imp hx
              simpa using this
          have hlen1 : R1.length ≤ n := by
            have := congrArg List.length hsplit
            simp only [List.length_cons, List.length_append] at this hlen
            omega
          rw [hext, hdl]
          conv_lhs => rw [hsplit, linesOf_append_nl, linesOf_no_nl hFnl,
            List.filter_append]
          have hf : List.filter lineQualifies
              [(c :: t).takeWhile (fun x => x != '\n')] = [] := by
            simp [List.filter, hFq]
          rw [hf, List.nil_append]
          exact ih R1 hlen1
      · -- successful match:  its region contributes at most one
        -- qualifying line, and exactly the match's Record when it does
        have hext : extract (c :: t) = recordOf m :: extract (dropNl rest) := by
          unfold extract
          rw [extractMatches_cons_some htm]
          rfl
        obtain ⟨c2, t2, hcons, haddr, hwseq, hsigeq, hresteq, h13, h25, h34,
          hwsne, hsgne, hRor⟩ := tryMatch_eq_some htm
        injection hcons with hc2 hr2
        subst hc2
        subst hr2
        have hdecomp : t = t.takeWhile isAddrChar ++
            ((t.dropWhile isAddrChar).takeWhile isPySpace ++
              (((t.dropWhile isAddrChar).dropWhile isPySpace).takeWhile isSigChar ++
                rest)) := by
          rw [hresteq, List.takeWhile_append_dropWhile, List.takeWhile_append_dropWhile,
            List.takeWhile_append_dropWhile]
        have hbody : ∀ x ∈ t.takeWhile isAddrChar, isAddrChar x = true :=
          fun x hx => List.mem_takeWhile_imp hx
        have hwsall : ∀ x ∈ (t.dropWhile isAddrChar).takeWhile isPySpace,
            isPySpace x = true := fun x hx => List.mem_takeWhile_imp hx
        have hsgall : ∀ x ∈ ((t.dropWhile isAddrChar).dropWhile isPySpace).takeWhile
            isSigChar, isSigChar x = true := fun x hx => List.mem_takeWhile_imp hx
        have hwsne' : (t.dropWhile isAddrChar).takeWhile isPySpace ≠ [] :=
          hwseq ▸ hwsne
        have hsgne' : ((t.dropWhile isAddrChar).dropWhile isPySpace).takeWhile
            isSigChar ≠ [] := hsigeq ▸ hsgne
        have hrec : recordOf m = ⟨c :: t.takeWhile isAddrChar,
            ((t.dropWhile isAddrChar).dropWhile isPySpace).takeWhile isSigChar⟩ := by
          unfold recordOf
          rw [haddr, hsigeq]
        have hlen2 : (dropNl rest).length ≤ n := by
          have h1 : rest.length < (c :: t).length := tryMatch_rest_length htm
          have h2 := dropNl_length_le rest
          simp only [List.length_cons] at h1 hlen
          omega
        rw [hext]
        conv_lhs => rw [hdecomp]
        rw [step_some h13 hbody h25 h34 hwsall hwsne' hsgall hsgne' hRor]
        by_cases hnlc : '\n' ∈ (t.dropWhile isAddrChar).takeWhile isPySpace
        · rw [if_pos hnlc, List.nil_append]
          exact (ih (dropNl rest) hlen2).cons _
        · rw [if_neg hnlc, List.singleton_append, hrec]
          exact (ih (dropNl rest) hlen2).cons₂ _

/-- The sublist property at the level of `extract`, fuel eliminated. -/
theorem extract_line_records_sublist (l : List Char) :
    List.Sublist (((linesOf l).filter lineQualifies).map lineRecord) (extract l) :=
  extract_sublist_aux l.length l le_rfl

/-- Every yielded match consists of an address token of the `[13]` class
shape, a nonempty whitespace separator and a nonempty signature token. -/
theorem extractMatches_shapes_aux :
    ∀ n (l : List Char), l.length ≤ n → ∀ m ∈ extractMatches l,
      (∃ c body, m.address = c :: body ∧ (c = '1' ∨ c = '3') ∧
        (∀ x ∈ body, isAddrChar x = true) ∧ 25 ≤ body.length ∧ body.length ≤ 34) ∧
      (m.ws ≠ [] ∧ ∀ x ∈ m.ws, isPySpace x = true) ∧
      (m.signature ≠ [] ∧ ∀ x ∈ m.signature, isSigChar x = true) := by
  intro n
  induction n with
  | zero =>
    intro l hlen m hm
    have hnil : l = [] := List.eq_nil_of_length_eq_zero (Nat.le_zero.mp hlen)
    subst hnil
    rw [extractMatches_nil] at hm
    simp at hm
  | succ n ih =>
    intro l hlen m hm
    cases l with
    | nil =>
      rw [extractMatches_nil] at hm
      simp at hm
    | cons c t =>
      rcases htm : tryMatch (c :: t) with - | ⟨m', rest⟩
      · rw [extractMatches_cons_none htm] at hm
        have hlen1 : (dropLine (c :: t)).length ≤ n := by
          have := dropLine_length_le c t
          simp only [List.length_cons] at hlen
          omega
        exact ih (dropLine (c :: t)) hlen1 m hm
      · rw [extractMatches_cons_some htm] at hm
        obtain ⟨c2, t2, hcons, haddr, hwseq, hsigeq, hresteq, h13, h25, h34,
          hwsne, hsgne, hRor⟩ := tryMatch_eq_some htm
        injection hcons with hc2 hr2
        subst hc2
        subst hr2
        rcases List.mem_cons.mp hm with rfl | hm
        · refine ⟨⟨c, t.takeWhile isAddrChar, haddr, h13,
            fun x hx => List.mem_takeWhile_imp hx, h25, h34⟩,
            ⟨hwsne, ?_⟩, ⟨hsgne, ?_⟩⟩
          · rw [hwseq]
            exact fun x hx => List.mem_takeWhile_imp hx
          · rw [hsigeq]
            exact fun x hx => List.mem_takeWhile_imp hx
        · have hlen2 : (dropNl rest).length ≤ n := by
            have h1 : rest.length < (c :: t).length := tryMatch_rest_length htm
            have h2 := dropNl_length_le rest
            simp only [List.length_cons] at h1 hlen
            omega
          exact ih (dropNl rest) hlen2 m hm

/-- Shape facts for every yielded match, fuel eliminated. -/
theorem extractMatches_shapes {l : List Char} {m : MatchData}
    (hm : m ∈ extractMatches l) :
    (∃ c body, m.address = c :: body ∧ (c = '1' ∨ c = '3') ∧
      (∀ x ∈ body, isAddrChar x = true) ∧ 25 ≤ body.length ∧ body.length ≤ 34) ∧
    (m.ws ≠ [] ∧ ∀ x ∈ m.ws, isPySpace x = true) ∧
    (m.signature ≠ [] ∧ ∀ x ∈ m.signature, isSigChar x = true) :=
  extractMatches_shapes_aux l.length l le_rfl m hm

/-- No character of a yielded Record is a newline. -/
theorem extract_record_no_nl {l : List Char} {r : Record} (h : r ∈ extract l) :
    (∀ x ∈ r.address, x ≠ '\n') ∧ ∀ x ∈ r.signature, x ≠ '\n' := by
  obtain ⟨m, hm, rfl⟩ := List.mem_map.mp h
  obtain ⟨⟨c, body, haddr, h13, hbody, -⟩, -, ⟨-, hsig⟩⟩ := extractMatches_shapes hm
  constructor
  · intro x hx
    have hx' : x ∈ m.address := hx
    rw [haddr] at hx'
    rcases List.mem_cons.mp hx' with rfl | hx'
    · rcases h13 with rfl | rfl <;> decide
    · exact addr_ne_nl (hbody x hx')
  · intro x hx
    exact sig_ne_nl (hsig x hx)

/-- Splitting the printed output into lines recovers one rendered Record
per line (plus the empty segment after the final newline). -/
theorem linesOf_printLoop :
    ∀ rs : List Record,
      (∀ r ∈ rs, (∀ x ∈ r.address, x ≠ '\n') ∧ ∀ x ∈ r.signature, x ≠ '\n') →
      linesOf (printLoop rs) = rs.map renderLine ++ [[]] := by
  intro rs
  induction rs with
  | nil => intro _; rfl
  | cons r rs ih =>
    intro h
    obtain ⟨haddr, hsig⟩ := h r (List.mem_cons_self _ _)
    have hrender : ∀ x ∈ renderLine r, x ≠ '\n' := by
      intro x hx
      rcases List.mem_append.mp hx with hx | hx
      · exact haddr x hx
      · rcases List.mem_cons.mp hx with rfl | hx
        · decide
        · exact hsig x hx
    have hsplit : printLoop (r :: rs) = renderLine r ++ '\n' :: printLoop rs := by
      simp [printLoop, renderLine]
    rw [hsplit, linesOf_append_nl, linesOf_no_nl hrender,
      ih fun x hx => h x (List.mem_cons_of_mem _ hx)]
    simp

/-- A line that matches the full shape except for being terminated by a
carriage-return/newline pair is rejected, and scanning continues after
the pair: the `$` anchor does not accept a position before `'\r'`, and
`'\r'` is in no token's class. -/
theorem extract_crlf (c : Char) (body w sg rest : List Char)
    (h13 : c = '1' ∨ c = '3') (hbody : ∀ x ∈ body, isAddrChar x = true)
    (h25 : 25 ≤ body.length) (h34 : body.length ≤ 34)
    (hw : ∀ x ∈ w, isPySpace x = true ∧ x ≠ '\n') (hwne : w ≠ [])
    (hsg : ∀ x ∈ sg, isSigChar x = true) (hsgne : sg ≠ []) :
    lineQualifies (c :: (body ++ (w ++ sg))) = true ∧
      extract (c :: (body ++ (w ++ (sg ++ '\r' :: '\n' :: rest)))) = extract rest := by
  constructor
  · exact (lineQualifies_parts h13 hbody h25 h34 (fun x hx => (hw x hx).1) hwne hsg
      hsgne).1
  · have hnone : tryMatch (c :: (body ++ (w ++ (sg ++ '\r' :: '\n' :: rest)))) =
        none :=
      tryMatch_parts_none hbody (fun x hx => (hw x hx).1) hwne hsg hsgne
        (by decide) (by decide)
    have hdw : (body ++ (w ++ (sg ++ '\r' :: '\n' :: rest))).dropWhile
        (fun x => x != '\n') = '\n' :: rest := by
      rw [show body ++ (w ++ (sg ++ '\r' :: '\n' :: rest)) =
        (body ++ w ++ sg ++ ['\r']) ++ '\n' :: rest by simp]
      refine dropWhile_append_stops _ ?_ (by decide)
      intro x hx
      simp only [List.append_assoc, List.mem_append, List.mem_singleton] at hx
      rcases hx with hx | hx | hx | rfl
      · simpa using addr_ne_nl (hbody x hx)
      · simpa using (hw x hx).2
      · simpa using sig_ne_nl (hsg x hx)
      · decide
    unfold extract
    rw [extractMatches_cons_none hnone]
    unfold dropLine
    rw [List.dropWhile_cons]
    have hc : (c != '\n') = true := by
      rcases h13 with rfl | rfl <;> decide
    rw [if_pos (by simp [hc]), hdw, dropNl_cons_nl]

/-! ### Concrete inputs used by the scenarios and counterexamples -/

/-- The Bitcoin address used in the specification's scenarios. -/
def boatAddress : List Char := "1BoatSLRHtKNngkdXEeobR76b53LETtpyT".toList

/-- Scenario 1 input: a single qualifying line. -/
def scenario1 : List Char :=
  "1BoatSLRHtKNngkdXEeobR76b53LETtpyT abc+DEF/123=".toList

/-- Scenario 3 input: a qualifying line followed by trailing spaces. -/
def scenario3 : List Char :=
  "1BoatSLRHtKNngkdXEeobR76b53LETtpyT abc+DEF/123=   ".toList

/-- An address alone on one line followed by a signature alone on the
next line: no single line matches the two-field shape, but the pattern's
`\s+` matches the separating newline. -/
def crossLineInput : List Char :=
  "1BoatSLRHtKNngkdXEeobR76b53LETtpyT\nabc+DEF/123=".toList

/-- A line matching the pattern whose signature contains the non-ASCII
word character `é` (0xE9), which `\w` matches in a `str` pattern. -/
def unicodeInput : List Char :=
  "1BoatSLRHtKNngkdXEeobR76b53LETtpyT abéc".toList

/-! ### Claims -/

/-- C1, counterexample: on `crossLineInput` the Extractor yields one
Record although zero entire lines match the two-field shape — the
claimed equality of Record count and qualifying-line count, and the
only-if direction of the claimed equivalence, fail because the match
spans two lines through the newline matched by `\s+`. -/
theorem c1_full_line_iff_counterexample :
    (extract crossLineInput).length = 1 ∧
      ((linesOf crossLineInput).filter lineQualifies).length = 0 := by
  constructor <;> decide

/-- C1, amended: every entire line matching the two-field shape yields a
Record, so the number of yielded Records is at least the number of
qualifying lines; the two counts can differ because `\s+` can match
newlines, letting a Record arise from a match spanning several lines
none of which qualifies on its own. -/
theorem c1_record_count_ge_qualifying_lines (l : List Char) :
    ((linesOf l).filter lineQualifies).length ≤ (extract l).length := by
  have h := (extract_line_records_sublist l).length_le
  simpa using h

/-- C2, counterexample: on `unicodeInput` the program yields a Record
whose signature `abéc` contains the non-ASCII word character `é`, which
is outside the claimed ASCII class `^[A-Za-z0-9_+/=]+$` — `\w` in a
`str` pattern without `re.ASCII` is not limited to ASCII. -/
theorem c2_ascii_signature_counterexample :
    extract unicodeInput = [⟨boatAddress, "abéc".toList⟩] ∧
      ¬ signatureWellFormed "abéc".toList := by
  constructor
  · decide
  · unfold signatureWellFormed
    decide

/-- C2, amended: every yielded Record's address matches
`^[13][A-Za-z0-9]{25,34}$`, and its signature is one or more characters
of the pattern's `[+\w/=]` class, where `\w` is Python's Unicode word
class — the ASCII set `[A-Za-z0-9_]` together with the non-ASCII Unicode
word characters — so signatures are not limited to the claimed ASCII
set. -/
theorem c2_record_token_shapes {l : List Char} {r : Record} (h : r ∈ extract l) :
    addressWellFormed r.address ∧ signatureTokenShape r.signature := by
  obtain ⟨m, hm, rfl⟩ := List.mem_map.mp h
  obtain ⟨⟨c, body, haddr, h13, hbody, h25, h34⟩, -, ⟨hsne, hsig⟩⟩ :=
    extractMatches_shapes hm
  exact ⟨⟨c, body, haddr, h13, hbody, h25, h34⟩, hsne, hsig⟩

/-- C2, witness: the Record yielded on `unicodeInput` has the amended
shapes — its signature contains a non-ASCII word character. -/
theorem c2_record_token_shapes_witness :
    (⟨boatAddress, "abéc".toList⟩ : Record) ∈ extract unicodeInput ∧
      addressWellFormed boatAddress ∧
      signatureTokenShape "abéc".toList :=
  ⟨by decide, @c2_record_token_shapes unicodeInput
    ⟨boatAddress, "abéc".toList⟩ (by decide)⟩

/-- C3, counterexample: on `crossLineInput` the single yielded match has
a separator consisting of exactly one newline character, so the
separating whitespace of a yielded Record is not restricted to spaces
and tabs and the two tokens do not lie on the same line. -/
theorem c3_separator_counterexample :
    extractMatches crossLineInput =
        [⟨boatAddress, ['\n'], "abc+DEF/123=".toList⟩] ∧
      ¬ ∀ m ∈ extractMatches crossLineInput, ∀ x ∈ m.ws, x ≠ '\n' := by
  constructor <;> decide

/-- C3, amended: the separator of every yielded match is a nonempty run
of whitespace characters of the `\s` class; that class includes the
newline character, so the address and signature tokens of a Record can
lie on different lines of the input. -/
theorem c3_separator_whitespace {l : List Char} {m : MatchData}
    (h : m ∈ extractMatches l) :
    m.ws ≠ [] ∧ ∀ x ∈ m.ws, isPySpace x = true :=
  (extractMatches_shapes h).2.1

/-- C3, witness: the cross-line match is yielded and its separator is a
nonempty whitespace run. -/
theorem c3_separator_whitespace_witness :
    (⟨boatAddress, ['\n'], "abc+DEF/123=".toList⟩ : MatchData) ∈
        extractMatches crossLineInput ∧
      (['\n'] : List Char) ≠ [] ∧
      ∀ x ∈ (['\n'] : List Char), isPySpace x = true :=
  ⟨by decide, @c3_separator_whitespace crossLineInput
    ⟨boatAddress, ['\n'], "abc+DEF/123=".toList⟩ (by decide)⟩

/-- C4: scenario 1 yields exactly one Record, with the address and the
signature taken verbatim. -/
theorem c4_scenario1 :
    extract scenario1 = [⟨boatAddress, "abc+DEF/123=".toList⟩] := by
  decide

/-- C5: trailing spaces after the signature violate the end-of-line
anchor, so scenario 3 yields zero Records — the line is rejected, not
trimmed. -/
theorem c5_trailing_whitespace_rejected : extract scenario3 = [] := by
  decide

/-- C6: the Records of the qualifying lines occur within the yielded
sequence as an order-preserving sublist: for qualifying lines at
positions i < j, the Record of line i is yielded before the Record of
line j. -/
theorem c6_line_order (l : List Char) :
    List.Sublist (((linesOf l).filter lineQualifies).map lineRecord) (extract l) :=
  extract_line_records_sublist l

/-- C7: the Extractor is a pure, deterministic function of the input
text: two runs on identical input texts yield identical Record
sequences. -/
theorem c7_deterministic (s t : List Char) (h : s = t) : extract s = extract t :=
  congrArg extract h

/-- C7, witness. -/
theorem c7_deterministic_witness :
    scenario1 = scenario1 ∧ extract scenario1 = extract scenario1 :=
  ⟨rfl, c7_deterministic scenario1 scenario1 rfl⟩

/-- C8: the printed output, split into lines, is exactly one line per
yielded Record in production order, each line being the address, one
single space and the signature (the final segment after the last printed
newline is empty). -/
theorem c8_output_rendering (l : List Char) :
    linesOf (printLoop (extract l)) = (extract l).map renderLine ++ [[]] :=
  linesOf_printLoop (extract l) fun _ hr => extract_record_no_nl hr

/-- C9: the run terminates abnormally, with the failure propagated and
nothing extracted or printed, exactly when the Markup Locator signals
that no preformatted block is present. -/
theorem c9_no_pre_block_error (pre : Option (List Char)) :
    runProgram pre = Except.error () ↔ pre = none := by
  cases pre <;> simp [runProgram]

/-- C10: a line whose content before a terminating carriage-return /
newline pair matches the two-field shape exactly yields no Record: the
end-of-line anchor accepts no position before `'\r'` and `'\r'` is in
neither token's class, so the line is rejected and extraction continues
after the pair, yielding exactly the Records of the remaining text. -/
theorem c10_crlf_line_rejected (c : Char) (body w sg rest : List Char)
    (h13 : c = '1' ∨ c = '3') (hbody : ∀ x ∈ body, isAddrChar x = true)
    (h25 : 25 ≤ body.length) (h34 : body.length ≤ 34)
    (hw : ∀ x ∈ w, isPySpace x = true ∧ x ≠ '\n') (hwne : w ≠ [])
    (hsg : ∀ x ∈ sg, isSigChar x = true) (hsgne : sg ≠ []) :
    lineQualifies (c :: (body ++ (w ++ sg))) = true ∧
      extract (c :: (body ++ (w ++ (sg ++ '\r' :: '\n' :: rest)))) = extract rest :=
  extract_crlf c body w sg rest h13 hbody h25 h34 hw hwne hsg hsgne

/-- C10, witness: a concrete CRLF-terminated line whose pre-`'\r'`
content qualifies, followed by scenario 1; only scenario 1's Record is
yielded. -/
theorem c10_crlf_line_rejected_witness :
    (∀ x ∈ "BoatSLRHtKNngkdXEeobR76b53LETtpyT".toList, isAddrChar x = true) ∧
      (∀ x ∈ ([' '] : List Char), isPySpace x = true ∧ x ≠ '\n') ∧
      (∀ x ∈ "abc=".toList, isSigChar x = true) ∧
      lineQualifies ('1' :: ("BoatSLRHtKNngkdXEeobR76b53LETtpyT".toList ++
        ([' '] ++ "abc=".toList))) = true ∧
      extract ('1' :: ("BoatSLRHtKNngkdXEeobR76b53LETtpyT".toList ++
          ([' '] ++ ("abc=".toList ++ '\r' :: '\n' :: scenario1)))) =
        extract scenario1 :=
  ⟨by decide, by decide, by decide,
    c10_crlf_line_rejected '1' "BoatSLRHtKNngkdXEeobR76b53LETtpyT".toList [' ']
      "abc=".toList scenario1 (Or.inl rfl) (by decide) (by decide) (by decide)
      (by decide) (by decide) (by decide) (by decide)⟩

end Down
